import Mathlib

/-!
Verification of the graph-tool core interface (src/src/graph/graph.hh).

The header declares `GraphInterface`, whose private members (lines 158-186)
are the multigraph `_mg`, the flags `_reversed` and `_directed`, the
property registry `_properties`, and the vertex/edge filter configuration
(`_vertex_filter_property`, `_vertex_filter_map`, `_vertex_range`,
`_vertex_python_filter`, and the edge analogues).  We embed this state
shallowly: the multigraph is a vertex count plus an edge list of
(source, target) pairs (parallel edges and self-loops permitted), property
maps are functions from index to rational, and the externally supplied
python filter objects are optional boolean predicates.

Member functions whose bodies appear inline in the header (the setters and
getters of lines 101-120, and `GraphException`, lines 196-203) are
translated directly.  The remaining member functions are only declared in
the header; where a claim depends on them they are modelled from the spec,
as marked in each doc comment.
-/

namespace GraphTool

/-- The `degree_t` enumeration of graph.hh lines 46-52: note it has FOUR
values, the fourth being `SCALAR`. -/
inductive degree_t where
  | IN_DEGREE : degree_t
  | OUT_DEGREE : degree_t
  | TOTAL_DEGREE : degree_t
  | SCALAR : degree_t
deriving DecidableEq, Repr

/-- `deg_t = boost::variant<degree_t, std::string>` (graph.hh line 67). -/
abbrev deg_t := Sum degree_t String

/-- Modelled from the spec: the body of `get_degree_type` (declared at
graph.hh line 190, returning `pair<degree_t, string>`) is not under src/.
Per the spec, a string degree argument names a scalar vertex property, and
the `SCALAR` tag marks that case; an enumeration argument passes through. -/
def get_degree_type : deg_t → degree_t × String
  | Sum.inl d => (d, "")
  | Sum.inr s => (degree_t.SCALAR, s)

/-- The multigraph `_mg` (`multigraph_t`, graph.hh lines 144-148): a
bidirectional adjacency list with parallel edges and self-loops permitted.
Embedded as a vertex count with a list of (source, target) pairs. -/
structure Multigraph where
  numVertices : Nat
  edges : List (Nat × Nat)
deriving Repr

/-- The private state of `GraphInterface` (graph.hh lines 158-186). -/
structure GraphState where
  mg : Multigraph
  properties : List (String × (Nat → ℚ))
  reversed : Bool
  directed : Bool
  vertex_filter_property : String
  vertex_filter_map : Nat → ℚ
  vertex_range : ℚ × ℚ
  vertex_python_filter : Option (Nat → Bool)
  edge_filter_property : String
  edge_filter_map : Nat → ℚ
  edge_range : ℚ × ℚ
  edge_python_filter : Option (Nat → Bool)

/-- `void SetDirected(bool directed) \x7b_directed = directed;\x7d` (line 101). -/
def SetDirected (g : GraphState) (directed : Bool) : GraphState :=
  { g with directed := directed }

/-- `bool GetDirected() const \x7breturn _directed;\x7d` (line 102). -/
def GetDirected (g : GraphState) : Bool := g.directed

/-- `void SetReversed(bool reversed) \x7b_reversed = reversed;\x7d` (line 104). -/
def SetReversed (g : GraphState) (reversed : Bool) : GraphState :=
  { g with reversed := reversed }

/-- `bool GetReversed() const \x7breturn _reversed;\x7d` (line 105). -/
def GetReversed (g : GraphState) : Bool := g.reversed

/-- `std::string GetVertexFilterProperty() const` (line 108). -/
def GetVertexFilterProperty (g : GraphState) : String := g.vertex_filter_property

/-- `void SetVertexFilterRange(std::pair<double, double> allowed_range)`
(line 109): assigns `_vertex_range`. -/
def SetVertexFilterRange (g : GraphState) (allowed_range : ℚ × ℚ) : GraphState :=
  { g with vertex_range := allowed_range }

/-- `std::pair<double, double> GetVertexFilterRange() const` (line 110). -/
def GetVertexFilterRange (g : GraphState) : ℚ × ℚ := g.vertex_range

/-- `std::string GetEdgeFilterProperty() const` (line 114). -/
def GetEdgeFilterProperty (g : GraphState) : String := g.edge_filter_property

/-- `void SetEdgeFilterRange(std::pair<double, double> allowed_range)`
(line 115): assigns `_edge_range`. -/
def SetEdgeFilterRange (g : GraphState) (allowed_range : ℚ × ℚ) : GraphState :=
  { g with edge_range := allowed_range }

/-- `std::pair<double, double> GetEdgeFilterRange() const` (line 116). -/
def GetEdgeFilterRange (g : GraphState) : ℚ × ℚ := g.edge_range

/-- `void SetGenericVertexFilter(boost::python::object filter)` (line 119):
assigns `_vertex_python_filter` and nothing else. -/
def SetGenericVertexFilter (g : GraphState) (filter : Option (Nat → Bool)) : GraphState :=
  { g with vertex_python_filter := filter }

/-- `void SetGenericEdgeFilter(boost::python::object filter)` (line 120):
assigns `_edge_python_filter` and nothing else. -/
def SetGenericEdgeFilter (g : GraphState) (filter : Option (Nat → Bool)) : GraphState :=
  { g with edge_python_filter := filter }

/-! ### The filtered view

The visibility machinery (`check_filter` / `check_python_filter`, declared
as friends at graph.hh lines 151-154, and `IsVertexFilterActive` /
`IsEdgeFilterActive`) has no body under src/, so it is modelled from the
spec below. -/

/-- Inclusive range membership test used by the range filters. -/
def inRange (r : ℚ × ℚ) (x : ℚ) : Bool :=
  decide (r.1 ≤ x ∧ x ≤ r.2)

/-- Modelled from the spec: the body of `IsVertexFilterActive` (graph.hh
line 111) is not under src/.  Per the spec a filter is active when it is a
configured range filter or an externally supplied predicate. -/
def IsVertexFilterActive (g : GraphState) : Bool :=
  g.vertex_python_filter.isSome || !(g.vertex_filter_property = "")

/-- Modelled from the spec: the body of `IsEdgeFilterActive` (graph.hh
line 117) is not under src/. -/
def IsEdgeFilterActive (g : GraphState) : Bool :=
  g.edge_python_filter.isSome || !(g.edge_filter_property = "")

/-- Modelled from the spec: the vertex visibility decision of the view
(friend `check_python_filter`, not under src/).  A call to a generic filter
setter supersedes a range filter of the same kind while active; with no
generic predicate, a configured range filter admits vertices whose filter
property value lies inclusively in `_vertex_range`; with neither, every
vertex is visible. -/
def vertexVisible (g : GraphState) (v : Nat) : Bool :=
  match g.vertex_python_filter with
  | some pred => pred v
  | none =>
      if g.vertex_filter_property = "" then true
      else inRange g.vertex_range (g.vertex_filter_map v)

/-- Modelled from the spec: the edge-kind visibility decision (the edge
filter conjunct), by edge index, analogous to `vertexVisible`. -/
def edgeFilterVisible (g : GraphState) (i : Nat) : Bool :=
  match g.edge_python_filter with
  | some pred => pred i
  | none =>
      if g.edge_filter_property = "" then true
      else inRange g.edge_range (g.edge_filter_map i)

/-- Modelled from the spec: an edge is visible only if both endpoints are
visible and the edge-kind filter admits it. -/
def edgeVisible (g : GraphState) (i : Nat) (e : Nat × Nat) : Bool :=
  vertexVisible g e.1 && vertexVisible g e.2 && edgeFilterVisible g i

/-- The visible vertices of the view, in index order. -/
def visibleVertices (g : GraphState) : List Nat :=
  (List.range g.mg.numVertices).filter (vertexVisible g)

/-- The visible edges of the view (edge indices are list positions). -/
def visibleEdges (g : GraphState) : List (Nat × Nat) :=
  (g.mg.edges.enum.filter (fun p => edgeVisible g p.1 p.2)).map Prod.snd

/-- The number of visible vertices of the view. -/
def numVisibleVertices (g : GraphState) : Nat :=
  (visibleVertices g).length

/-- Value of the named scalar vertex property at a vertex (0 when the name
is not registered, matching an empty property map). -/
def propertyValue (g : GraphState) (name : String) (v : Nat) : ℚ :=
  match g.properties.lookup name with
  | some f => f v
  | none => 0

/-- In-degree of a vertex on the view: visible edges whose target is `v`. -/
def inDegreeOf (g : GraphState) (v : Nat) : Nat :=
  (visibleEdges g).countP (fun e => e.2 = v)

/-- Out-degree of a vertex on the view: visible edges whose source is `v`. -/
def outDegreeOf (g : GraphState) (v : Nat) : Nat :=
  (visibleEdges g).countP (fun e => e.1 = v)

/-- Modelled from the spec: the degree selector dispatch (the estimator
bodies are not under src/).  IN and OUT swap when the view is reversed;
on an undirected view each of IN, OUT, TOTAL is the count of visible
incident edges; a string selects a scalar vertex property. -/
def degreeValue (g : GraphState) (d : deg_t) (v : Nat) : ℚ :=
  match d with
  | Sum.inr s => propertyValue g s v
  | Sum.inl degree_t.SCALAR => propertyValue g "" v
  | Sum.inl dd =>
      if !g.directed then (inDegreeOf g v + outDegreeOf g v : Nat)
      else
        match dd, g.reversed with
        | degree_t.IN_DEGREE, false => (inDegreeOf g v : Nat)
        | degree_t.IN_DEGREE, true => (outDegreeOf g v : Nat)
        | degree_t.OUT_DEGREE, false => (outDegreeOf g v : Nat)
        | degree_t.OUT_DEGREE, true => (inDegreeOf g v : Nat)
        | _, _ => (inDegreeOf g v + outDegreeOf g v : Nat)

/-! ### Histograms -/

/-- `hist_t` (graph.hh line 62): a map from scalar key to count, embedded
as an association list built by increments. -/
abbrev hist_t := List (ℚ × Nat)

/-- Increment the count of key `k` in a histogram (inserting it at count 1
when absent). -/
def histAdd (h : hist_t) (k : ℚ) : hist_t :=
  match h with
  | [] => [(k, 1)]
  | (k0, c) :: rest =>
      if k0 = k then (k0, c + 1) :: rest else (k0, c) :: histAdd rest k

/-- The sum over all keys of the counts of a histogram. -/
def histTotal (h : hist_t) : Nat :=
  (h.map Prod.snd).sum

/-- Modelled from the spec: the body of `GetDegreeHistogram` (graph.hh
line 80) is not under src/.  Per the spec it counts the visible vertices
of the view bucketed by the selected degree. -/
def GetDegreeHistogram (g : GraphState) (d : deg_t) : hist_t :=
  (visibleVertices g).foldl (fun h v => histAdd h (degreeValue g d v)) []

/-! ### Assortativity -/

/-- Degree pairs (deg(source), deg(target)) over the visible edge list of
the view; on a reversed directed view the endpoint roles are swapped. -/
def edgeDegreePairs (g : GraphState) (d : deg_t) : List (ℚ × ℚ) :=
  (visibleEdges g).map (fun e =>
    if g.reversed && g.directed then (degreeValue g d e.2, degreeValue g d e.1)
    else (degreeValue g d e.1, degreeValue g d e.2))

/-- Mean of the endpoint degrees of a pair list, pooled over both
endpoints, following the symmetric treatment of Newman. -/
def endpointMean (xs : List (ℚ × ℚ)) : ℚ :=
  if xs.length = 0 then 0
  else (xs.map (fun p => (p.1 + p.2) / 2)).sum / (xs.length : ℚ)

/-- Pooled variance of the endpoint degrees of a pair list. -/
def endpointVariance (xs : List (ℚ × ℚ)) : ℚ :=
  if xs.length = 0 then 0
  else (xs.map (fun p => (p.1 ^ 2 + p.2 ^ 2) / 2)).sum / (xs.length : ℚ)
       - endpointMean xs ^ 2

/-- Covariance of the endpoint degrees of a pair list. -/
def endpointCovariance (xs : List (ℚ × ℚ)) : ℚ :=
  if xs.length = 0 then 0
  else (xs.map (fun p => p.1 * p.2)).sum / (xs.length : ℚ) - endpointMean xs ^ 2

/-- The Pearson correlation of the endpoint degrees in the pooled form of
Newman: covariance over variance. -/
def pearsonNewman (xs : List (ℚ × ℚ)) : ℚ :=
  endpointCovariance xs / endpointVariance xs

/-- Modelled from the spec: the computational core of
`GetAssortativityCoefficient` (graph.hh line 88, body not under src/), on
a list of endpoint degree pairs, with denominators cleared: with `M` the
pair count, numerator `M * sum(j k) - (sum((j+k)/2))^2` and denominator
`M * sum((j^2+k^2)/2) - (sum((j+k)/2))^2`; a zero denominator (zero
variance) is reported as the error "degenerate". -/
def assortFromPairs (xs : List (ℚ × ℚ)) : Except String ℚ :=
  if (xs.length : ℚ) * ((xs.map (fun p => (p.1 ^ 2 + p.2 ^ 2) / 2)).sum)
      - ((xs.map (fun p => (p.1 + p.2) / 2)).sum) ^ 2 = 0 then
    Except.error "degenerate"
  else
    Except.ok (((xs.length : ℚ) * ((xs.map (fun p => p.1 * p.2)).sum)
        - ((xs.map (fun p => (p.1 + p.2) / 2)).sum) ^ 2)
      / ((xs.length : ℚ) * ((xs.map (fun p => (p.1 ^ 2 + p.2 ^ 2) / 2)).sum)
        - ((xs.map (fun p => (p.1 + p.2) / 2)).sum) ^ 2))

/-- Modelled from the spec: the body of `GetAssortativityCoefficient`
(graph.hh line 88) is not under src/.  Per the spec it is the Pearson
correlation of deg(source) and deg(target) over the visible edge list,
failing with "degenerate" when the variance is zero. -/
def GetAssortativityCoefficient (g : GraphState) (d : deg_t) : Except String ℚ :=
  assortFromPairs (edgeDegreePairs g d)

/-! ### Parallel edge removal -/

/-- Modelled from the spec: the body of `RemoveParallelEdges` (graph.hh
line 127) is not under src/.  Per the spec it removes duplicate edges so
that every ordered (source, target) pair keeps at most one edge. -/
def RemoveParallelEdges (g : GraphState) : GraphState :=
  { g with mg := { g.mg with edges := g.mg.edges.dedup } }

/-- Multiplicity of the ordered pair `uv` in an edge list. -/
def edgeMultiplicity (l : List (Nat × Nat)) (uv : Nat × Nat) : Nat :=
  l.countP (fun e => decide (e = uv))

/-! ### Correlated configurational model generator -/

/-- Modelled from the spec: one degree draw of the generator (body of
`GenerateCorrelatedConfigurationalModel`, graph.hh lines 74-75, not under
src/).  It rejects over a window of uniform triples: the candidate
`(j,k) = inv_ceil r1 r2` is accepted with probability
`p(j,k) / (B * ceil(j,k))`, that is when `r3 * B * ceil(j,k) <= p(j,k)`;
the draw fails when the whole window is rejected (zero acceptance, the
sign of an unsatisfiable ceiling bound `B`). -/
def sampleVertexDegree (p c : Nat → Nat → ℚ) (B : ℚ)
    (inv_ceil : ℚ → ℚ → Nat × Nat) :
    List (ℚ × ℚ × ℚ) → Option (Nat × Nat)
  | [] => none
  | (r1, r2, r3) :: rest =>
      let jk := inv_ceil r1 r2
      if r3 * (B * c jk.1 jk.2) ≤ p jk.1 jk.2 then some jk
      else sampleVertexDegree p c B inv_ceil rest

/-- Modelled from the spec: degree-sequence sampling of the generator; an
error is reported when any vertex draw sees zero acceptance over its trial
window. -/
def sampleDegreeSequence (N : Nat) (p c : Nat → Nat → ℚ) (B : ℚ)
    (inv_ceil : ℚ → ℚ → Nat × Nat) (randoms : Nat → List (ℚ × ℚ × ℚ)) :
    Except String (List (Nat × Nat)) :=
  let draws := (List.range N).map (fun i => sampleVertexDegree p c B inv_ceil (randoms i))
  if draws.all Option.isSome then Except.ok (draws.filterMap id)
  else Except.error "ceiling bound unsatisfiable: zero acceptance over the trial window"

/-- Modelled from the spec: the rewiring step pairs out-stubs with
in-stubs over the sampled degree sequence (vertex `i` with degrees
`(j_i, k_i)` holds `j_i` in-stubs and `k_i` out-stubs); unmatchable stub
totals are an error. -/
def matchStubs (degseq : List (Nat × Nat)) : Except String (List (Nat × Nat)) :=
  let outStubs := (degseq.enum.map (fun q => List.replicate q.2.2 q.1)).flatten
  let inStubs := (degseq.enum.map (fun q => List.replicate q.2.1 q.1)).flatten
  if outStubs.length = inStubs.length then Except.ok (outStubs.zip inStubs)
  else Except.error "unmatchable stubs"

/-- Modelled from the spec: the pure generation pipeline of
`GenerateCorrelatedConfigurationalModel`: sample a degree sequence by
rejection, then rewire stubs into an edge list over `N` vertices. -/
def generateGraph (N : Nat) (p c : Nat → Nat → ℚ) (B : ℚ)
    (inv_ceil : ℚ → ℚ → Nat × Nat) (randoms : Nat → List (ℚ × ℚ × ℚ)) :
    Except String Multigraph := do
  let degseq ← sampleDegreeSequence N p c B inv_ceil randoms
  let edges ← matchStubs degseq
  Except.ok ⟨N, edges⟩

/-- Modelled from the spec: the body of
`GenerateCorrelatedConfigurationalModel` (graph.hh lines 74-75) is not
under src/.  Per the spec a failure reports an error without committing
state, and on success the new graph fully replaces the old one.  The
result pairs the state after the call with the outcome. -/
def GenerateCorrelatedConfigurationalModel (g : GraphState) (N : Nat)
    (p c : Nat → Nat → ℚ) (B : ℚ) (inv_ceil : ℚ → ℚ → Nat × Nat)
    (randoms : Nat → List (ℚ × ℚ × ℚ)) : GraphState × Except String Unit :=
  match generateGraph N p c B inv_ceil randoms with
  | Except.error e => (g, Except.error e)
  | Except.ok m => ({ g with mg := m }, Except.ok ())

/-- `GraphException` (graph.hh lines 196-203): the constructor stores the
message in `_error`; `what()` returns it. -/
structure GraphException where
  error : String

/-- `virtual const char * what () const throw () \x7breturn _error.c_str();\x7d`. -/
def GraphException.what (e : GraphException) : String := e.error

/-! ## Theorems -/

/-- Incrementing a histogram key raises the total count by one. -/
theorem histTotal_histAdd (h : hist_t) (k : ℚ) :
    histTotal (histAdd h k) = histTotal h + 1 := by
  induction h with
  | nil => rfl
  | cons q rest ih =>
      obtain ⟨k0, c⟩ := q
      simp only [histAdd, histTotal, List.map_cons, List.sum_cons] at ih ⊢
      split
      · simp only [List.map_cons, List.sum_cons]
        omega
      · simp only [List.map_cons, List.sum_cons]
        omega

/-- Folding histogram increments over a list adds its length to the total. -/
theorem histTotal_foldl (f : Nat → ℚ) (l : List Nat) (h : hist_t) :
    histTotal (l.foldl (fun h2 v => histAdd h2 (f v)) h) = histTotal h + l.length := by
  induction l generalizing h with
  | nil => simp
  | cons a t ih =>
      simp only [List.foldl_cons, List.length_cons, ih, histTotal_histAdd]
      omega

/-- C1: for every view (every GraphState with any combination of directed,
reversed and vertex/edge filters) and every degree selector, the sum over
all keys of the counts of GetDegreeHistogram equals the number of visible
vertices of that view. -/
theorem C1_degree_histogram_total (g : GraphState) (d : deg_t) :
    histTotal (GetDegreeHistogram g d) = numVisibleVertices g := by
  rw [GetDegreeHistogram, numVisibleVertices, histTotal_foldl]
  simp [histTotal]

/-- C2: calling SetReversed with the negation of the current reversed flag
twice in succession restores the state exactly, hence every estimator (any
function of the state) gives the same output as before. -/
theorem C2_reversed_toggle_identity {α : Type} (E : GraphState → α) (g : GraphState) :
    SetReversed (SetReversed g (!GetReversed g))
        (!GetReversed (SetReversed g (!GetReversed g))) = g ∧
    E (SetReversed (SetReversed g (!GetReversed g))
        (!GetReversed (SetReversed g (!GetReversed g)))) = E g := by
  have h : SetReversed (SetReversed g (!GetReversed g))
      (!GetReversed (SetReversed g (!GetReversed g))) = g := by
    cases g
    simp [SetReversed, GetReversed]
  exact ⟨h, by rw [h]⟩

/-- C5: RemoveParallelEdges leaves at most one edge per ordered (u, v)
pair, and applying it a second time changes nothing. -/
theorem nodup_edgeMultiplicity_le_one {l : List (Nat × Nat)} (h : l.Nodup)
    (uv : Nat × Nat) : edgeMultiplicity l uv ≤ 1 := by
  induction l with
  | nil => simp [edgeMultiplicity]
  | cons a t ih =>
      rw [List.nodup_cons] at h
      by_cases ha : a = uv
      · subst ha
        have hz : t.countP (fun e => decide (e = a)) = 0 := by
          rw [List.countP_eq_zero]
          intro x hx
          simp only [decide_eq_true_eq]
          intro hxa
          exact h.1 (hxa ▸ hx)
        simp [edgeMultiplicity, List.countP_cons, hz]
      · have ht := ih h.2
        simp only [edgeMultiplicity, List.countP_cons] at ht ⊢
        simp only [decide_eq_true_eq]
        rw [if_neg ha]
        omega

/-- C5: RemoveParallelEdges leaves at most one edge per ordered (u, v)
pair, and applying it a second time changes nothing. -/
theorem C5_remove_parallel_edges (g : GraphState) (u v : Nat) :
    RemoveParallelEdges (RemoveParallelEdges g) = RemoveParallelEdges g ∧
    edgeMultiplicity (RemoveParallelEdges g).mg.edges (u, v) ≤ 1 := by
  constructor
  · simp [RemoveParallelEdges, List.dedup_idem]
  · exact nodup_edgeMultiplicity_le_one (List.nodup_dedup _) (u, v)

/-- C6: while a generic vertex or edge filter predicate is stored, the
visibility decision of that kind is the generic predicate itself, also
after the range filter of the same kind is (re)configured. -/
theorem C6_generic_filter_supersedes (g : GraphState) (pv pe : Nat → Bool)
    (rv re : ℚ × ℚ) (v i : Nat) :
    vertexVisible (SetVertexFilterRange (SetGenericVertexFilter g (some pv)) rv) v = pv v ∧
    vertexVisible (SetGenericVertexFilter g (some pv)) v = pv v ∧
    edgeFilterVisible (SetEdgeFilterRange (SetGenericEdgeFilter g (some pe)) re) i = pe i ∧
    edgeFilterVisible (SetGenericEdgeFilter g (some pe)) i = pe i :=
  ⟨rfl, rfl, rfl, rfl⟩

/-- C3: the generator is atomic: either it reports an error and the whole
GraphState (multigraph, properties, flags, filters) is exactly as before
the call, or it succeeds and the generated graph fully replaces the old
multigraph while all other components are kept. -/
theorem C3_generator_atomic (g : GraphState) (N : Nat) (p c : Nat → Nat → ℚ)
    (B : ℚ) (inv_ceil : ℚ → ℚ → Nat × Nat) (randoms : Nat → List (ℚ × ℚ × ℚ)) :
    (∃ e, (GenerateCorrelatedConfigurationalModel g N p c B inv_ceil randoms).2 =
          Except.error e ∧
        (GenerateCorrelatedConfigurationalModel g N p c B inv_ceil randoms).1 = g) ∨
    (∃ m, generateGraph N p c B inv_ceil randoms = Except.ok m ∧
        (GenerateCorrelatedConfigurationalModel g N p c B inv_ceil randoms).2 =
          Except.ok () ∧
        (GenerateCorrelatedConfigurationalModel g N p c B inv_ceil randoms).1 =
          { g with mg := m }) := by
  cases hg : generateGraph N p c B inv_ceil randoms with
  | error e =>
      exact Or.inl ⟨e, by simp [GenerateCorrelatedConfigurationalModel, hg],
        by simp [GenerateCorrelatedConfigurationalModel, hg]⟩
  | ok m =>
      exact Or.inr ⟨m, rfl, by simp [GenerateCorrelatedConfigurationalModel, hg],
        by simp [GenerateCorrelatedConfigurationalModel, hg]⟩

/-- C7: a GraphException built from message `s` returns exactly `s` from
`what()`, and each fallible operation either completes with a value or
fails with exactly one error (the generator leaving the state unchanged on
failure); no partial result is returned. -/
theorem C7_single_error_channel (s : String) (g : GraphState) (d : deg_t)
    (N : Nat) (p c : Nat → Nat → ℚ) (B : ℚ) (inv_ceil : ℚ → ℚ → Nat × Nat)
    (randoms : Nat → List (ℚ × ℚ × ℚ)) :
    (GraphException.mk s).what = s ∧
    ((∃ q, GetAssortativityCoefficient g d = Except.ok q) ∨
        (∃ e, GetAssortativityCoefficient g d = Except.error e)) ∧
    ((GenerateCorrelatedConfigurationalModel g N p c B inv_ceil randoms).2 =
          Except.ok () ∨
        (∃ e, (GenerateCorrelatedConfigurationalModel g N p c B inv_ceil randoms).2 =
            Except.error e ∧
          (GenerateCorrelatedConfigurationalModel g N p c B inv_ceil randoms).1 = g)) := by
  refine ⟨rfl, ?_, ?_⟩
  · cases hq : GetAssortativityCoefficient g d with
    | ok q => exact Or.inl ⟨q, rfl⟩
    | error e => exact Or.inr ⟨e, rfl⟩
  · cases hg : generateGraph N p c B inv_ceil randoms with
    | ok m => exact Or.inl (by simp [GenerateCorrelatedConfigurationalModel, hg])
    | error e =>
        exact Or.inr ⟨e, by simp [GenerateCorrelatedConfigurationalModel, hg],
          by simp [GenerateCorrelatedConfigurationalModel, hg]⟩

/-- C8 counterexample: it is false that every value of deg_t is one of the
three enumerations IN_DEGREE, OUT_DEGREE, TOTAL_DEGREE or a string: the
concrete value `Sum.inl degree_t.SCALAR` is a fourth enumeration member
that deg_t also admits. -/
theorem C8_deg_t_counterexample :
    ¬ (∀ d : deg_t, d = Sum.inl degree_t.IN_DEGREE ∨
        d = Sum.inl degree_t.OUT_DEGREE ∨ d = Sum.inl degree_t.TOTAL_DEGREE ∨
        ∃ s : String, d = Sum.inr s) := by
  intro h
  rcases h (Sum.inl degree_t.SCALAR) with h1 | h1 | h1 | ⟨s, h1⟩ <;> simp at h1

/-- C8 (amended): every deg_t value is one of the FOUR enumerations
IN_DEGREE, OUT_DEGREE, TOTAL_DEGREE, SCALAR or a string naming a scalar
vertex property; get_degree_type normalizes both forms to a (tag, name)
pair, mapping a string s to (SCALAR, s); and every estimator taking a
degree selector (here GetDegreeHistogram) accepts either form and
produces the same shape of result (a hist_t). -/
theorem C8_deg_t_amended :
    (∀ d : deg_t, d = Sum.inl degree_t.IN_DEGREE ∨
        d = Sum.inl degree_t.OUT_DEGREE ∨ d = Sum.inl degree_t.TOTAL_DEGREE ∨
        d = Sum.inl degree_t.SCALAR ∨ ∃ s : String, d = Sum.inr s) ∧
    (∀ dd : degree_t, get_degree_type (Sum.inl dd) = (dd, "")) ∧
    (∀ s : String, get_degree_type (Sum.inr s) = (degree_t.SCALAR, s)) ∧
    (∀ (g : GraphState) (d : deg_t), ∃ h : hist_t, GetDegreeHistogram g d = h) := by
  refine ⟨?_, fun dd => rfl, fun s => rfl, fun g d => ⟨_, rfl⟩⟩
  intro d
  rcases d with dd | s
  · cases dd
    · exact Or.inl rfl
    · exact Or.inr (Or.inl rfl)
    · exact Or.inr (Or.inr (Or.inl rfl))
    · exact Or.inr (Or.inr (Or.inr (Or.inl rfl)))
  · exact Or.inr (Or.inr (Or.inr (Or.inr ⟨s, rfl⟩)))

/-- C9: each of SetDirected, SetReversed, SetVertexFilterRange and
SetEdgeFilterRange updates exactly its own field: the paired getter
returns the value just set, and the multigraph, the property registry and
every other flag and filter field are unchanged. -/
theorem C9_setters_frame (g : GraphState) (b r : Bool) (vr er : ℚ × ℚ) :
    GetDirected (SetDirected g b) = b ∧
    (SetDirected g b).mg = g.mg ∧
    (SetDirected g b).properties = g.properties ∧
    (SetDirected g b).reversed = g.reversed ∧
    (SetDirected g b).vertex_filter_property = g.vertex_filter_property ∧
    (SetDirected g b).vertex_filter_map = g.vertex_filter_map ∧
    (SetDirected g b).vertex_range = g.vertex_range ∧
    (SetDirected g b).vertex_python_filter = g.vertex_python_filter ∧
    (SetDirected g b).edge_filter_property = g.edge_filter_property ∧
    (SetDirected g b).edge_filter_map = g.edge_filter_map ∧
    (SetDirected g b).edge_range = g.edge_range ∧
    (SetDirected g b).edge_python_filter = g.edge_python_filter ∧
    GetReversed (SetReversed g r) = r ∧
    (SetReversed g r).mg = g.mg ∧
    (SetReversed g r).properties = g.properties ∧
    (SetReversed g r).directed = g.directed ∧
    (SetReversed g r).vertex_filter_property = g.vertex_filter_property ∧
    (SetReversed g r).vertex_filter_map = g.vertex_filter_map ∧
    (SetReversed g r).vertex_range = g.vertex_range ∧
    (SetReversed g r).vertex_python_filter = g.vertex_python_filter ∧
    (SetReversed g r).edge_filter_property = g.edge_filter_property ∧
    (SetReversed g r).edge_filter_map = g.edge_filter_map ∧
    (SetReversed g r).edge_range = g.edge_range ∧
    (SetReversed g r).edge_python_filter = g.edge_python_filter ∧
    GetVertexFilterRange (SetVertexFilterRange g vr) = vr ∧
    (SetVertexFilterRange g vr).mg = g.mg ∧
    (SetVertexFilterRange g vr).properties = g.properties ∧
    (SetVertexFilterRange g vr).reversed = g.reversed ∧
    (SetVertexFilterRange g vr).directed = g.directed ∧
    (SetVertexFilterRange g vr).vertex_filter_property = g.vertex_filter_property ∧
    (SetVertexFilterRange g vr).vertex_filter_map = g.vertex_filter_map ∧
    (SetVertexFilterRange g vr).vertex_python_filter = g.vertex_python_filter ∧
    (SetVertexFilterRange g vr).edge_filter_property = g.edge_filter_property ∧
    (SetVertexFilterRange g vr).edge_filter_map = g.edge_filter_map ∧
    (SetVertexFilterRange g vr).edge_range = g.edge_range ∧
    (SetVertexFilterRange g vr).edge_python_filter = g.edge_python_filter ∧
    GetEdgeFilterRange (SetEdgeFilterRange g er) = er ∧
    (SetEdgeFilterRange g er).mg = g.mg ∧
    (SetEdgeFilterRange g er).properties = g.properties ∧
    (SetEdgeFilterRange g er).reversed = g.reversed ∧
    (SetEdgeFilterRange g er).directed = g.directed ∧
    (SetEdgeFilterRange g er).vertex_filter_property = g.vertex_filter_property ∧
    (SetEdgeFilterRange g er).vertex_filter_map = g.vertex_filter_map ∧
    (SetEdgeFilterRange g er).vertex_range = g.vertex_range ∧
    (SetEdgeFilterRange g er).vertex_python_filter = g.vertex_python_filter ∧
    (SetEdgeFilterRange g er).edge_filter_property = g.edge_filter_property ∧
    (SetEdgeFilterRange g er).edge_filter_map = g.edge_filter_map ∧
    (SetEdgeFilterRange g er).edge_python_filter = g.edge_python_filter :=
  ⟨rfl, rfl, rfl, rfl, rfl, rfl, rfl, rfl, rfl, rfl, rfl, rfl,
   rfl, rfl, rfl, rfl, rfl, rfl, rfl, rfl, rfl, rfl, rfl, rfl,
   rfl, rfl, rfl, rfl, rfl, rfl, rfl, rfl, rfl, rfl, rfl, rfl,
   rfl, rfl, rfl, rfl, rfl, rfl, rfl, rfl, rfl, rfl, rfl, rfl⟩

/-- C10: storing a generic vertex (edge) filter predicate does not clear
the range-filter configuration of the same kind: the configured property
name and range still read back unchanged, while the predicate is stored. -/
theorem C10_generic_filter_keeps_range_config (g : GraphState)
    (pv pe : Nat → Bool) :
    GetVertexFilterProperty (SetGenericVertexFilter g (some pv)) =
        g.vertex_filter_property ∧
    GetVertexFilterRange (SetGenericVertexFilter g (some pv)) = g.vertex_range ∧
    (SetGenericVertexFilter g (some pv)).vertex_python_filter = some pv ∧
    GetEdgeFilterProperty (SetGenericEdgeFilter g (some pe)) =
        g.edge_filter_property ∧
    GetEdgeFilterRange (SetGenericEdgeFilter g (some pe)) = g.edge_range ∧
    (SetGenericEdgeFilter g (some pe)).edge_python_filter = some pe :=
  ⟨rfl, rfl, rfl, rfl, rfl, rfl⟩

/-- The cleared-denominator assortativity computation agrees with the
mean-based Pearson form of Newman: it fails with "degenerate" exactly when
the pooled endpoint variance is zero, and returns covariance over variance
otherwise. -/
theorem assortFromPairs_eq (xs : List (ℚ × ℚ)) :
    assortFromPairs xs =
      if endpointVariance xs = 0 then Except.error "degenerate"
      else Except.ok (pearsonNewman xs) := by
  rcases eq_or_ne xs.length 0 with h0 | hne
  · have hnil : xs = [] := List.length_eq_zero.mp h0
    subst hnil
    norm_num [assortFromPairs, endpointVariance, pearsonNewman, endpointCovariance,
      endpointMean]
  · have hM : (xs.length : ℚ) ≠ 0 := Nat.cast_ne_zero.mpr hne
    have hmean : endpointMean xs =
        (xs.map (fun p => (p.1 + p.2) / 2)).sum / (xs.length : ℚ) := by
      rw [endpointMean, if_neg hne]
    have hvar : endpointVariance xs =
        ((xs.length : ℚ) * (xs.map (fun p => (p.1 ^ 2 + p.2 ^ 2) / 2)).sum
          - ((xs.map (fun p => (p.1 + p.2) / 2)).sum) ^ 2) / (xs.length : ℚ) ^ 2 := by
      rw [endpointVariance, if_neg hne, hmean]
      field_simp
      ring
    have hcov : endpointCovariance xs =
        ((xs.length : ℚ) * (xs.map (fun p => p.1 * p.2)).sum
          - ((xs.map (fun p => (p.1 + p.2) / 2)).sum) ^ 2) / (xs.length : ℚ) ^ 2 := by
      rw [endpointCovariance, if_neg hne, hmean]
      field_simp
      ring
    rw [assortFromPairs]
    by_cases hden : (xs.length : ℚ) * (xs.map (fun p => (p.1 ^ 2 + p.2 ^ 2) / 2)).sum
        - ((xs.map (fun p => (p.1 + p.2) / 2)).sum) ^ 2 = 0
    · rw [if_pos hden, if_pos (by rw [hvar, hden, zero_div])]
    · have hvarne : endpointVariance xs ≠ 0 := by
        rw [hvar]
        exact div_ne_zero hden (pow_ne_zero 2 hM)
      rw [if_neg hden, if_neg hvarne, pearsonNewman, hcov, hvar]
      congr 1
      field_simp

/-- C4: GetAssortativityCoefficient returns the Pearson correlation (in
the pooled form of Newman) of deg(source) and deg(target) over the visible
edge list, and fails with the error "degenerate" exactly when the variance
of the endpoint degrees is zero. -/
theorem C4_assortativity_pearson (g : GraphState) (d : deg_t) :
    GetAssortativityCoefficient g d =
      if endpointVariance (edgeDegreePairs g d) = 0 then Except.error "degenerate"
      else Except.ok (pearsonNewman (edgeDegreePairs g d)) :=
  assortFromPairs_eq (edgeDegreePairs g d)

end GraphTool
